import Mathlib

/-!
Verification of the consistency-engine specification of the pyam scenario-data
library (discrete-year and continuous-time containers of long-format rows plus
a metadata table).  The repository ships only its test suite; the core
operations are therefore modelled from the specification, and each definition
below that stands in for a missing source function says so in its doc comment.
Values and continuous times are modelled as rationals, discrete years as
integers, and names as strings (manipulated through their character lists).
-/

set_option maxHeartbeats 1000000

/-- Splits a character list at every occurrence of the separator `c`.
Mirrors the path-like segmentation of variable names used throughout the
spec (variable hierarchy, composite scenario keys). -/
def splitCh (c : Char) : List Char → List (List Char)
  | [] => [[]]
  | x :: xs =>
    let r := splitCh c xs
    if x = c then [] :: r else (x :: r.headI) :: r.tail

/-- Joins a list of segments with the separator `c`; inverse of `splitCh`. -/
def joinCh (c : Char) : List (List Char) → List Char
  | [] => []
  | [l] => l
  | l :: l' :: t => l ++ c :: joinCh c (l' :: t)

theorem splitCh_ne_nil (c : Char) (l : List Char) : splitCh c l ≠ [] := by
  cases l with
  | nil => simp [splitCh]
  | cons x xs =>
    simp only [splitCh]
    split <;> simp

theorem joinCh_cons_cons (c : Char) (h : List Char) (t : List (List Char)) (x : Char) :
    joinCh c ((x :: h) :: t) = x :: joinCh c (h :: t) := by
  cases t <;> simp [joinCh]

theorem joinCh_splitCh (c : Char) (l : List Char) : joinCh c (splitCh c l) = l := by
  induction l with
  | nil => simp [splitCh, joinCh]
  | cons x xs ih =>
    simp only [splitCh]
    by_cases hx : x = c
    · subst hx
      simp only [if_pos rfl]
      obtain ⟨h, t, ht⟩ : ∃ h t, splitCh x xs = h :: t := by
        cases hs : splitCh x xs with
        | nil => exact absurd hs (splitCh_ne_nil x xs)
        | cons h t => exact ⟨h, t, rfl⟩
      rw [ht] at ih ⊢
      simpa [joinCh] using ih
    · simp only [if_neg hx]
      obtain ⟨h, t, ht⟩ : ∃ h t, splitCh c xs = h :: t := by
        cases hs : splitCh c xs with
        | nil => exact absurd hs (splitCh_ne_nil c xs)
        | cons h t => exact ⟨h, t, rfl⟩
      rw [ht] at ih ⊢
      simpa [joinCh_cons_cons] using ih

theorem splitCh_no_sep (c : Char) (l : List Char) (h : c ∉ l) : splitCh c l = [l] := by
  induction l with
  | nil => rfl
  | cons x xs ih =>
    simp only [List.mem_cons, not_or] at h
    have hx : ¬ x = c := fun hxc => h.1 hxc.symm
    simp [splitCh, hx, ih h.2]

theorem splitCh_append_sep (c : Char) (a b : List Char) :
    splitCh c (a ++ c :: b) = splitCh c a ++ splitCh c b := by
  induction a with
  | nil => simp [splitCh]
  | cons x a' ih =>
    by_cases hx : x = c
    · subst hx
      simp [splitCh, ih]
    · obtain ⟨h, t, ht⟩ : ∃ h t, splitCh c a' = h :: t := by
        cases hs : splitCh c a' with
        | nil => exact absurd hs (splitCh_ne_nil c a')
        | cons h t => exact ⟨h, t, rfl⟩
      simp [splitCh, hx, ih, ht]

theorem strext {s t : String} (h : s.data = t.data) : s = t := by
  cases s; cases t; exact congrArg String.mk h

theorem strdata_append (s t : String) : (s ++ t).data = s.data ++ t.data := rfl

theorem strmk_data (s : String) : String.mk s.data = s := rfl

/-- One long-format observation row: `(model, scenario, region, variable, unit,
time, value)`.  The time type `τ` is `Int` for the discrete-year variant and
`Rat` for the continuous-time variant. -/
structure Row (τ : Type) where
  model : String
  scenario : String
  region : String
  varname : String
  unit : String
  time : τ
  value : Rat
deriving DecidableEq

/-- A scalar metadata cell: boolean, number or string. -/
inductive MetaVal where
  | b (v : Bool)
  | n (v : Rat)
  | s (v : String)
deriving DecidableEq

/-- One metadata row: the entity key `(model, scenario)`, the always-present
boolean `exclude` flag, and the dynamically accreted named scalar columns. -/
structure MetaRow where
  model : String
  scenario : String
  exclude : Bool
  cols : List (String × MetaVal)
deriving DecidableEq

/-- The discrete-year container: long-format data with integer years plus a
metadata table. -/
structure IamDataFrame where
  data : List (Row Int)
  meta : List MetaRow
deriving DecidableEq

/-- The continuous-time container: long-format data with rational times plus a
metadata table. -/
structure OpenSCMDataFrame where
  data : List (Row Rat)
  meta : List MetaRow
deriving DecidableEq

/-- Sentinel model name used by the converter for rows that carry no
diagnostics provenance. -/
def naModel : String := "N/A"

/-- Modelled from the spec: missing `pyam.core` discrete-to-continuous row
conversion.  Reassigns `scenario` to the composite key `scenario|model`,
extracts the model from a `Diagnostics|model|...` variable prefix when present
(stripping it) and otherwise uses the sentinel placeholder. -/
def toOpenscmRow (r : Row Int) : Row Rat :=
  let comp : String := String.mk (r.scenario.data ++ '|' :: r.model.data)
  match splitCh '|' r.varname.data with
  | d :: m2 :: rest =>
    if d = "Diagnostics".data ∧ rest ≠ [] then
      ⟨String.mk m2, comp, r.region, String.mk (joinCh '|' rest), r.unit, (r.time : Rat), r.value⟩
    else
      ⟨naModel, comp, r.region, r.varname, r.unit, (r.time : Rat), r.value⟩
  | _ => ⟨naModel, comp, r.region, r.varname, r.unit, (r.time : Rat), r.value⟩

/-- Modelled from the spec: missing `pyam.core` continuous-to-discrete row
conversion.  Splits the composite scenario key back into `(scenario, model)`
at the last separator, re-applies the `Diagnostics|model|` variable namespace
for rows whose model is not the sentinel, and coerces time to an integer year
(flooring, so non-whole times lose precision). -/
def toIamRow (r : Row Rat) : Row Int :=
  let segs := splitCh '|' r.scenario.data
  let v : String :=
    if r.model = naModel then r.varname
    else String.mk ("Diagnostics".data ++ '|' :: r.model.data ++ '|' :: r.varname.data)
  ⟨String.mk (segs.getLastD []), String.mk (joinCh '|' segs.dropLast), r.region, v, r.unit,
    ⌊r.time⌋, r.value⟩

/-- Modelled from the spec: missing `pyam.core.IamDataFrame.to_openscm_df`.
Converts every data row; the metadata table passes through the conversion
(the spec specifies no metadata transformation and requires the closed-loop
round trip to reproduce metadata exactly). -/
def IamDataFrame.to_openscm_df (c : IamDataFrame) : OpenSCMDataFrame :=
  ⟨c.data.map toOpenscmRow, c.meta⟩

/-- Modelled from the spec: missing `pyam.core.OpenSCMDataFrame.to_iam_df`. -/
def OpenSCMDataFrame.to_iam_df (c : OpenSCMDataFrame) : IamDataFrame :=
  ⟨c.data.map toIamRow, c.meta⟩

/-- A discrete-year row survives the conversion round trip when its model name
contains no separator (else the composite scenario key splits wrongly) and its
variable does not namespace the sentinel model (else the diagnostics prefix is
not restored). -/
def goodIamRow (r : Row Int) : Bool :=
  decide ('|' ∉ r.model.data) &&
  (match splitCh '|' r.varname.data with
   | d :: m2 :: rest =>
     !(decide (d = "Diagnostics".data) && decide (rest ≠ []) && decide (m2 = "N/A".data))
   | _ => true)

theorem toIamRow_toOpenscmRow (r : Row Int) (h : goodIamRow r = true) :
    toIamRow (toOpenscmRow r) = r := by
  obtain ⟨m, sc, reg, v, u, t, x⟩ := r
  simp only [goodIamRow, Bool.and_eq_true, decide_eq_true_eq] at h
  obtain ⟨hm, hv⟩ := h
  have hsegs : splitCh '|' (sc.data ++ '|' :: m.data) = splitCh '|' sc.data ++ [m.data] := by
    rw [splitCh_append_sep, splitCh_no_sep '|' m.data hm]
  cases hsp : splitCh '|' v.data with
  | nil => exact absurd hsp (splitCh_ne_nil '|' v.data)
  | cons d tl =>
    cases tl with
    | nil =>
      -- single-segment variable: not a diagnostics name
      simp only [toOpenscmRow, hsp, toIamRow, hsegs]
      simp [naModel, List.getLastD_concat, List.dropLast_concat, joinCh_splitCh, strmk_data,
        Int.floor_intCast]
    | cons m2 rest =>
      rw [hsp] at hv
      by_cases hd : d = "Diagnostics".data ∧ rest ≠ []
      · -- diagnostics-namespaced variable
        have hm2 : ¬ (m2 = "N/A".data) := by
          simp only [Bool.and_eq_true, decide_eq_true_eq, Bool.not_eq_true'] at hv
          intro hc
          simp [hd.1, hd.2, hc] at hv
        simp only [toOpenscmRow, hsp, if_pos hd, toIamRow, hsegs]
        have hnm : ¬ (String.mk m2 = naModel) := fun hc => hm2 (congrArg String.data hc)
        simp only [if_neg hnm, strmk_data]
        have hvrec : String.mk ("Diagnostics".data ++ '|' :: m2 ++ '|' :: joinCh '|' rest) = v := by
          apply strext
          have : v.data = joinCh '|' (d :: m2 :: rest) := (hsp ▸ (joinCh_splitCh '|' v.data)).symm
          rw [this, hd.1]
          obtain ⟨r1, rs, hrest⟩ : ∃ r1 rs, rest = r1 :: rs := by
            cases rest with
            | nil => exact absurd rfl hd.2
            | cons r1 rs => exact ⟨r1, rs, rfl⟩
          subst hrest
          simp [joinCh]
        simp [List.getLastD_concat, List.dropLast_concat, joinCh_splitCh, strmk_data,
          Int.floor_intCast]
        exact hvrec
      · -- multi-segment variable without the diagnostics namespace
        simp only [toOpenscmRow, hsp, if_neg hd, toIamRow, hsegs]
        simp [naModel, List.getLastD_concat, List.dropLast_concat, joinCh_splitCh, strmk_data,
          Int.floor_intCast]

/-- Round trip through the continuous-time representation and back, for a
whole container. -/
theorem roundtrip_good (c : IamDataFrame) (h : ∀ r ∈ c.data, goodIamRow r = true) :
    c.to_openscm_df.to_iam_df = c := by
  obtain ⟨d, m⟩ := c
  simp only [IamDataFrame.to_openscm_df, OpenSCMDataFrame.to_iam_df, List.map_map,
    IamDataFrame.mk.injEq, and_true]
  induction d with
  | nil => rfl
  | cons r rs ih =>
    simp only [List.mem_cons, forall_eq_or_imp] at h
    simp [toIamRow_toOpenscmRow r h.1, ih h.2]

/-- A container breaking the round trip: its model name contains the
separator, so the composite scenario key is split back at the wrong place. -/
def c1bad : IamDataFrame :=
  ⟨[⟨"a|b", "s", "World", "Primary Energy", "EJ/y", 2005, 1⟩], []⟩

/-- A well-formed container mirroring the repository's `test_to_openscm_df`
fixture: diagnostics-namespaced and plain variables, two years each. -/
def c1fix : IamDataFrame :=
  ⟨[⟨"a_model", "a_scenario", "World", "Diagnostics|c_model|Surface Temperature", "K", 2005, 9⟩,
    ⟨"a_model", "a_scenario", "World", "Diagnostics|c_model|Surface Temperature", "K", 2010, 94⟩,
    ⟨"a_model", "a_scenario", "World", "Emissions|CO2", "Gt C / yr", 2005, 5⟩,
    ⟨"a_model", "a_scenario", "World", "Emissions|CO2|Coal", "Gt C / yr", 2010, 3⟩],
   [⟨"a_model", "a_scenario", false, []⟩]⟩

/-- Claim C1 (counterexample): the round trip is not exact for every
discrete-year container.  A model name containing the separator makes the
composite scenario key split back at the wrong place, so converting to the
continuous-time variant and back does not reproduce the container. -/
theorem C1_cex : c1bad.to_openscm_df.to_iam_df ≠ c1bad := by decide

/-- Claim C1 (amended): for every discrete-year container whose model names
contain no separator and whose variables do not namespace the sentinel model,
converting to the continuous-time variant and back
(`to_openscm_df` then `to_iam_df`) yields a container whose long-format data
table and metadata table are exactly equal to the original's. -/
theorem C1_roundtrip (c : IamDataFrame) (h : ∀ r ∈ c.data, goodIamRow r = true) :
    c.to_openscm_df.to_iam_df.data = c.data ∧ c.to_openscm_df.to_iam_df.meta = c.meta := by
  have := roundtrip_good c h
  exact ⟨congrArg IamDataFrame.data this, congrArg IamDataFrame.meta this⟩

/-- Claim C1 (witness): the amended round trip evaluated on a concrete
container mirroring the repository's conversion fixture. -/
theorem C1_roundtrip_witness :
    (∀ r ∈ c1fix.data, goodIamRow r = true) ∧
      c1fix.to_openscm_df.to_iam_df.data = c1fix.data ∧
      c1fix.to_openscm_df.to_iam_df.meta = c1fix.meta :=
  ⟨by decide, C1_roundtrip c1fix (by decide)⟩

/-- The exception taxonomy surfaced by the library, as observed by callers. -/
inductive PyExc where
  | valueError (msg : String)
  | attributeError (msg : String)
  | keyError (msg : String)
  | conversionError (msg : String) (traceback : String)
  | plainError (msg : String)
deriving DecidableEq

/-- The human-readable message carried by an exception. -/
def PyExc.message : PyExc → String
  | .valueError m => m
  | .attributeError m => m
  | .keyError m => m
  | .conversionError m _ => m
  | .plainError m => m

/-- `small` occurs contiguously inside `big`. -/
def strOccurs (small big : String) : Prop := ∃ pre post, big = pre ++ small ++ post

theorem strappend_assoc (a b c : String) : a ++ b ++ c = a ++ (b ++ c) :=
  strext (by simp [strdata_append])

/-- Modelled from the spec: the traceback string rendered for a caught
exception, which reports the original failure's message. -/
def mkTraceback (e : PyExc) : String :=
  "Traceback (most recent call last):\n" ++ e.message

/-- Modelled from the spec: missing `pyam.errors.ConversionError` wrapping.
Any failure inside a variant conversion is re-raised as the single uniform
conversion-error kind, whose message reports the original failure's message
and a traceback string; the originating exception type is discarded. -/
def wrapConversion (target : String) : Except PyExc α → Except PyExc α
  | .ok a => .ok a
  | .error e =>
    .error (.conversionError
      ("I do not know why, but I cannot convert to an " ++ target ++
        ".\nThe original traceback is:\n" ++ mkTraceback e)
      (mkTraceback e))

/-- Modelled from the spec: missing `pyam.core.IamDataFrame.to_openscm_df`
error handling.  The data-extraction step (the piece the repository's tests
replace by a mock raising arbitrary exception types) is a parameter; its
result is routed through the uniform conversion-error wrapper. -/
def to_openscm_df_checked (step : IamDataFrame → Except PyExc OpenSCMDataFrame)
    (c : IamDataFrame) : Except PyExc OpenSCMDataFrame :=
  wrapConversion "OpenSCMDataFrame" (step c)

/-- Modelled from the spec: missing `pyam.core.OpenSCMDataFrame.to_iam_df`
error handling, with the mocked extraction step as a parameter. -/
def to_iam_df_checked (step : OpenSCMDataFrame → Except PyExc IamDataFrame)
    (c : OpenSCMDataFrame) : Except PyExc IamDataFrame :=
  wrapConversion "IamDataFrame" (step c)

theorem strdata_empty : ("" : String).data = [] := rfl

theorem wrapConversion_error {α : Type} (target : String) (e : PyExc) :
    ∃ msg tb, wrapConversion target (.error e : Except PyExc α) =
        .error (.conversionError msg tb) ∧ strOccurs e.message msg ∧ strOccurs e.message tb := by
  refine ⟨_, _, rfl,
    ⟨"I do not know why, but I cannot convert to an " ++ target ++
      ".\nThe original traceback is:\n" ++ "Traceback (most recent call last):\n", "", ?_⟩,
    ⟨"Traceback (most recent call last):\n", "", ?_⟩⟩
  · apply strext
    simp [mkTraceback, strdata_append, strdata_empty, List.append_assoc]
  · apply strext
    simp [mkTraceback, strdata_append, strdata_empty]

/-- Claim C4: every failure arising inside a variant conversion, whatever the
underlying exception kind, surfaces as the single uniform conversion-error
kind whose message and traceback contain the original failure's message; the
originating exception kind is never propagated. -/
theorem C4_conversion_error_uniform
    (stepO : IamDataFrame → Except PyExc OpenSCMDataFrame)
    (stepI : OpenSCMDataFrame → Except PyExc IamDataFrame)
    (ci : IamDataFrame) (co : OpenSCMDataFrame) (e e' : PyExc)
    (hO : stepO ci = .error e) (hI : stepI co = .error e') :
    (∃ msg tb, to_openscm_df_checked stepO ci = .error (.conversionError msg tb) ∧
        strOccurs e.message msg ∧ strOccurs e.message tb) ∧
    (∃ msg tb, to_iam_df_checked stepI co = .error (.conversionError msg tb) ∧
        strOccurs e'.message msg ∧ strOccurs e'.message tb) := by
  constructor
  · rw [to_openscm_df_checked, hO]
    exact wrapConversion_error "OpenSCMDataFrame" e
  · rw [to_iam_df_checked, hI]
    exact wrapConversion_error "IamDataFrame" e'

/-- Claim C4 (witness): a mocked extraction step raising a key error (for the
discrete-to-continuous direction) and a plain exception (for the reverse
direction) both surface as conversion errors reporting the message `Test`. -/
theorem C4_conversion_error_uniform_witness :
    (∃ msg tb, to_openscm_df_checked (fun _ => .error (.keyError "Test")) c1fix =
        .error (.conversionError msg tb) ∧
        strOccurs (PyExc.keyError "Test").message msg ∧
        strOccurs (PyExc.keyError "Test").message tb) ∧
    (∃ msg tb, to_iam_df_checked (fun _ => .error (.plainError "Test")) c1fix.to_openscm_df =
        .error (.conversionError msg tb) ∧
        strOccurs (PyExc.plainError "Test").message msg ∧
        strOccurs (PyExc.plainError "Test").message tb) :=
  C4_conversion_error_uniform (fun _ => .error (.keyError "Test"))
    (fun _ => .error (.plainError "Test")) c1fix c1fix.to_openscm_df
    (.keyError "Test") (.plainError "Test") rfl rfl

/-- One row of a wide pivot table: the five key columns plus the values under
the time columns (positionally aligned with the column-label list). -/
structure WideRow where
  model : String
  scenario : String
  region : String
  varname : String
  unit : String
  values : List Rat
deriving DecidableEq

/-- Modelled from the spec: missing index/schema code deriving the entity
index.  Deduplicates the `(model, scenario)` pairs of the input to initialize
the metadata table, every entity starting with `exclude = false` and no other
columns. -/
def defaultMeta (rows : List WideRow) : List MetaRow :=
  ((rows.map (fun r => (r.model, r.scenario))).dedup).map (fun e => ⟨e.1, e.2, false, []⟩)

/-- Modelled from the spec: missing `pyam.utils` year casting.  Every
time-column label must be exactly representable as an integer; a label with a
fractional part is a schema error surfaced as a value error. -/
def castYearCols (cols : List Rat) : Except PyExc (List Int) :=
  if ∀ q ∈ cols, q.den = 1 then .ok (cols.map Rat.num)
  else .error (.valueError "invalid time format, columns must be integer years")

/-- Reshapes one wide row to long format against the given year labels. -/
def longOfWide (years : List Int) (r : WideRow) : List (Row Int) :=
  (years.zip r.values).map (fun p => ⟨r.model, r.scenario, r.region, r.varname, r.unit, p.1, p.2⟩)

/-- Modelled from the spec: missing `pyam.core.IamDataFrame.__init__` from a
wide pivot table.  Casts time columns to integer years (rejecting fractional
labels) and reshapes to long format, deriving the default metadata table. -/
def initIamDataFrame (cols : List Rat) (rows : List WideRow) : Except PyExc IamDataFrame :=
  match castYearCols cols with
  | .error e => .error e
  | .ok years => .ok ⟨rows.flatMap (longOfWide years), defaultMeta rows⟩

/-- Modelled from the spec: missing `pyam.core.OpenSCMDataFrame.__init__`
from a wide pivot table.  Time columns are accepted as-is as floats. -/
def initOpenSCMDataFrame (cols : List Rat) (rows : List WideRow) : OpenSCMDataFrame :=
  ⟨rows.flatMap (fun r =>
      (cols.zip r.values).map (fun p => ⟨r.model, r.scenario, r.region, r.varname, r.unit, p.1, p.2⟩)),
    defaultMeta rows⟩

/-- Claim C9: constructing the discrete-year container from a wide table
fails with a value error if any time-column label has a fractional part,
while labels exactly representable as integers are accepted (cast to their
integer value); the continuous-time container accepts any labels as-is. -/
theorem C9_float_cols (cols : List Rat) (rows : List WideRow) :
    ((∃ q ∈ cols, q.den ≠ 1) →
      ∃ m, initIamDataFrame cols rows = .error (.valueError m)) ∧
    ((∀ q ∈ cols, q.den = 1) →
      initIamDataFrame cols rows = .ok ⟨rows.flatMap (longOfWide (cols.map Rat.num)), defaultMeta rows⟩) ∧
    (∀ r ∈ (initOpenSCMDataFrame cols rows).data, r.time ∈ cols) := by
  refine ⟨fun hbad => ?_, fun hok => ?_, fun r hr => ?_⟩
  · have : ¬ ∀ q ∈ cols, q.den = 1 := by
      obtain ⟨q, hq, hd⟩ := hbad
      exact fun hall => hd (hall q hq)
    exact ⟨_, by rw [initIamDataFrame, castYearCols, if_neg this]⟩
  · rw [initIamDataFrame, castYearCols, if_pos hok]
  · simp only [initOpenSCMDataFrame, List.mem_flatMap, List.mem_map] at hr
    obtain ⟨w, _, p, hp, hpr⟩ := hr
    have : r.time = p.1 := by rw [← hpr]
    rw [this]
    exact (List.of_mem_zip hp).1

/-- Claim C9 (witness): the label `2005.5` is rejected for the discrete-year
variant, the labels `2005` and `2010` are accepted, and the continuous-time
variant keeps `2005.5` as-is. -/
theorem C9_float_cols_witness :
    ((∃ q ∈ [mkRat 4011 2, (2010 : Rat)], q.den ≠ 1) ∧
      ∃ m, initIamDataFrame [mkRat 4011 2, (2010 : Rat)] [⟨"m", "s", "World", "v", "u", [1, 6]⟩] =
        .error (.valueError m)) ∧
    ((∀ q ∈ [(2005 : Rat), (2010 : Rat)], q.den = 1) ∧
      initIamDataFrame [(2005 : Rat), (2010 : Rat)] [⟨"m", "s", "World", "v", "u", [1, 6]⟩] =
        .ok ⟨[⟨"m", "s", "World", "v", "u", 2005, 1⟩, ⟨"m", "s", "World", "v", "u", 2010, 6⟩],
          [⟨"m", "s", false, []⟩]⟩) ∧
    (∀ r ∈ (initOpenSCMDataFrame [mkRat 4011 2] [⟨"m", "s", "World", "v", "u", [1]⟩]).data,
      r.time ∈ [mkRat 4011 2]) := by
  refine ⟨⟨by decide, ?_⟩, ⟨by decide, ?_⟩, ?_⟩
  · exact (C9_float_cols [mkRat 4011 2, (2010 : Rat)] [⟨"m", "s", "World", "v", "u", [1, 6]⟩]).1
      ⟨mkRat 4011 2, by decide, by decide⟩
  · have := (C9_float_cols [(2005 : Rat), (2010 : Rat)] [⟨"m", "s", "World", "v", "u", [1, 6]⟩]).2.1
      (by decide)
    rw [this]
    rfl
  · exact (C9_float_cols [mkRat 4011 2] [⟨"m", "s", "World", "v", "u", [1]⟩]).2.2

/-- One validation criterion: a variable key with optional `up` / `lo` bounds
and an optional `year` restriction. -/
structure Criterion where
  varname : String
  up : Option Rat
  lo : Option Rat
  year : Option Int
deriving DecidableEq

/-- Modelled from the spec: missing `pyam.core` validation row test.  A row
offends a criterion when it is of the criterion's variable (and year, when
given) and its value exceeds `up` or falls below `lo`. -/
def violatesBound (cr : Criterion) (r : Row Int) : Bool :=
  (r.varname == cr.varname) &&
  (match cr.year with
   | none => true
   | some y => r.time == y) &&
  ((match cr.up with
    | none => false
    | some u => decide (u < r.value)) ||
   (match cr.lo with
    | none => false
    | some l => decide (r.value < l)))

/-- A row offends some criterion of the given set. -/
def anyViolation (criteria : List Criterion) (r : Row Int) : Bool :=
  criteria.any (fun cr => violatesBound cr r)

/-- The offending rows of a container under a criteria set. -/
def offendingRows (c : IamDataFrame) (criteria : List Criterion) : List (Row Int) :=
  c.data.filter (anyViolation criteria)

/-- Modelled from the spec: missing `pyam.core.IamDataFrame.validate` result.
Returns the offending rows, or `None` if no row violates any bound. -/
def validate (c : IamDataFrame) (criteria : List Criterion) : Option (List (Row Int)) :=
  if offendingRows c criteria = [] then none else some (offendingRows c criteria)

/-- Marks a metadata row excluded when an offending data row carries its
entity key. -/
def excludeUpdate (off : List (Row Int)) (mr : MetaRow) : MetaRow :=
  if off.any (fun r => r.model == mr.model && r.scenario == mr.scenario) then
    ⟨mr.model, mr.scenario, true, mr.cols⟩
  else mr

/-- Modelled from the spec: missing `pyam.core.IamDataFrame.validate` with
`exclude_on_fail`.  Returns the validation result together with the container
whose metadata carries the updated exclude flags. -/
def validateEx (c : IamDataFrame) (criteria : List Criterion) (excludeOnFail : Bool) :
    Option (List (Row Int)) × IamDataFrame :=
  (validate c criteria,
    ⟨c.data,
      if excludeOnFail then c.meta.map (excludeUpdate (offendingRows c criteria)) else c.meta⟩)

/-- The two-scenario fixture mirroring the repository's `meta_df`: scenario
`a_scenario` holds `Primary Energy` values 1 and 6 (and a coal component),
scenario `a_scenario2` holds values 2 and 7. -/
def metaFixture : IamDataFrame :=
  ⟨[⟨"a_model", "a_scenario", "World", "Primary Energy", "EJ/y", 2005, 1⟩,
    ⟨"a_model", "a_scenario", "World", "Primary Energy", "EJ/y", 2010, 6⟩,
    ⟨"a_model", "a_scenario", "World", "Primary Energy|Coal", "EJ/y", 2005, mkRat 1 2⟩,
    ⟨"a_model", "a_scenario", "World", "Primary Energy|Coal", "EJ/y", 2010, 3⟩,
    ⟨"a_model", "a_scenario2", "World", "Primary Energy", "EJ/y", 2005, 2⟩,
    ⟨"a_model", "a_scenario2", "World", "Primary Energy", "EJ/y", 2010, 7⟩],
   [⟨"a_model", "a_scenario", false, []⟩, ⟨"a_model", "a_scenario2", false, []⟩]⟩

/-- The single-series container of the claim: values 1 and 6 at 2005, 2010. -/
def series16 : IamDataFrame :=
  ⟨[⟨"a_model", "a_scenario", "World", "Primary Energy", "EJ/y", 2005, 1⟩,
    ⟨"a_model", "a_scenario", "World", "Primary Energy", "EJ/y", 2010, 6⟩],
   [⟨"a_model", "a_scenario", false, []⟩]⟩

/-- The criterion `up = 6.5` on `Primary Energy`. -/
def upCrit : Criterion := ⟨"Primary Energy", some (mkRat 13 2), none, none⟩

/-- Claim C7 (counterexample): against a series with values 1 and 6 at years
2005 and 2010, the criterion `up = 6.5` flags nothing at all (6 does not
exceed 6.5): `validate` returns `None`, not a table flagging the 2010 row. -/
theorem C7_cex : validate series16 [upCrit] = none := by decide

/-- Claim C7 (amended): `validate` returns exactly the rows whose value
exceeds the `up` bound or falls below the `lo` bound (of their variable and,
when given, year), and returns `None` when no row violates any bound; on the
claim's series with values 1 and 6, the criterion `up = 6.5` therefore
returns `None`, and the 2010 row is flagged exactly when its value exceeds
the bound (as the value 7 of the fixture's second scenario does). -/
theorem C7_validate_exact (c : IamDataFrame) (criteria : List Criterion) :
    (validate c criteria = none ↔ ∀ r ∈ c.data, anyViolation criteria r = false) ∧
    (∀ l, validate c criteria = some l → ∀ r, r ∈ l ↔ r ∈ c.data ∧ anyViolation criteria r = true) := by
  constructor
  · rw [validate]
    constructor
    · intro h
      split at h
      · next hemp =>
        intro r hr
        by_contra hv
        have : r ∈ offendingRows c criteria :=
          List.mem_filter.mpr ⟨hr, by simpa using hv⟩
        simp [hemp] at this
      · exact absurd h (by simp)
    · intro h
      have : offendingRows c criteria = [] := by
        rw [offendingRows, List.filter_eq_nil_iff]
        intro r hr
        simp [h r hr]
      simp [this]
  · intro l hl r
    rw [validate] at hl
    split at hl
    · exact absurd hl (by simp)
    · cases hl
      exact List.mem_filter

/-- Claim C7 (witness): on the two-scenario fixture the criterion `up = 6.5`
returns exactly the second scenario's 2010 row, whose value 7 exceeds the
bound. -/
theorem C7_validate_exact_witness :
    validate metaFixture [upCrit] =
      some [⟨"a_model", "a_scenario2", "World", "Primary Energy", "EJ/y", 2010, 7⟩] ∧
    ((⟨"a_model", "a_scenario2", "World", "Primary Energy", "EJ/y", 2010, 7⟩ : Row Int) ∈
        [(⟨"a_model", "a_scenario2", "World", "Primary Energy", "EJ/y", 2010, 7⟩ : Row Int)] ↔
      (⟨"a_model", "a_scenario2", "World", "Primary Energy", "EJ/y", 2010, 7⟩ : Row Int) ∈
          metaFixture.data ∧
        anyViolation [upCrit] ⟨"a_model", "a_scenario2", "World", "Primary Energy", "EJ/y", 2010, 7⟩ =
          true) :=
  ⟨by decide,
    (C7_validate_exact metaFixture [upCrit]).2
      [⟨"a_model", "a_scenario2", "World", "Primary Energy", "EJ/y", 2010, 7⟩] (by decide)
      ⟨"a_model", "a_scenario2", "World", "Primary Energy", "EJ/y", 2010, 7⟩⟩

/-- Claim C10: an entity whose data contains no rows of a criterion's
variable is treated as passing `validate` for that criterion: it contributes
no offending rows, its metadata row (hence its exclude flag) is unchanged by
`exclude_on_fail`, and only entities with actually violating rows end up with
`exclude = true` (unless they were already excluded). -/
theorem C10_validate_nonexisting (c : IamDataFrame) (cr : Criterion) (mr : MetaRow)
    (hmr : mr ∈ c.meta)
    (h : ∀ r ∈ c.data, r.model = mr.model → r.scenario = mr.scenario → r.varname ≠ cr.varname) :
    (∀ r ∈ offendingRows c [cr], ¬(r.model = mr.model ∧ r.scenario = mr.scenario)) ∧
    mr ∈ (validateEx c [cr] true).2.meta ∧
    (∀ mr' ∈ (validateEx c [cr] true).2.meta, mr'.exclude = true →
      (∃ mr0 ∈ c.meta, mr0.model = mr'.model ∧ mr0.scenario = mr'.scenario ∧ mr0.exclude = true) ∨
      (∃ r ∈ c.data, r.model = mr'.model ∧ r.scenario = mr'.scenario ∧
        anyViolation [cr] r = true)) := by
  have hnooff : ∀ r ∈ offendingRows c [cr], ¬(r.model = mr.model ∧ r.scenario = mr.scenario) := by
    intro r hr ⟨hm, hs⟩
    have hrd := List.mem_filter.mp hr
    have hviol : violatesBound cr r = true := by
      have := hrd.2
      simpa [anyViolation] using this
    have hvar : r.varname = cr.varname := by
      simp only [violatesBound, Bool.and_eq_true, beq_iff_eq] at hviol
      exact hviol.1.1
    exact h r hrd.1 hm hs hvar
  refine ⟨hnooff, ?_, ?_⟩
  · have hupd : excludeUpdate (offendingRows c [cr]) mr = mr := by
      rw [excludeUpdate, if_neg]
      simp only [List.any_eq_true, Bool.and_eq_true, beq_iff_eq, not_exists]
      intro r
      rintro ⟨hr, hm, hs⟩
      exact hnooff r hr ⟨hm, hs⟩
    have : excludeUpdate (offendingRows c [cr]) mr ∈
        c.meta.map (excludeUpdate (offendingRows c [cr])) := List.mem_map_of_mem _ hmr
    rw [hupd] at this
    simpa [validateEx] using this
  · intro mr' hmr' hex
    simp only [validateEx, if_pos, List.mem_map] at hmr'
    obtain ⟨mr0, hmr0, hupd⟩ := hmr'
    by_cases hfire :
        (offendingRows c [cr]).any (fun r => r.model == mr0.model && r.scenario == mr0.scenario)
    · right
      simp only [List.any_eq_true, Bool.and_eq_true, beq_iff_eq] at hfire
      obtain ⟨r, hr, hm, hs⟩ := hfire
      have hrd := List.mem_filter.mp hr
      have hment : mr'.model = mr0.model ∧ mr'.scenario = mr0.scenario := by
        rw [← hupd, excludeUpdate]
        split <;> simp
      exact ⟨r, hrd.1, by rw [hment.1, ← hm], by rw [hment.2, ← hs], hrd.2⟩
    · left
      have : mr' = mr0 := by
        rw [← hupd, excludeUpdate, if_neg hfire]
      exact ⟨mr0, hmr0, by rw [this], by rw [this], by rw [← this]; exact hex⟩

/-- Claim C10 (witness): on the two-scenario fixture with the criterion
`up = 2` on `Primary Energy|Coal`, the second scenario has no coal rows:
its metadata row stays unexcluded while the violating first scenario is the
only source of offending rows. -/
theorem C10_validate_nonexisting_witness :
    ((⟨"a_model", "a_scenario2", false, []⟩ : MetaRow) ∈ metaFixture.meta) ∧
    (∀ r ∈ offendingRows metaFixture [⟨"Primary Energy|Coal", some 2, none, none⟩],
      ¬(r.model = "a_model" ∧ r.scenario = "a_scenario2")) ∧
    (⟨"a_model", "a_scenario2", false, []⟩ : MetaRow) ∈
      (validateEx metaFixture [⟨"Primary Energy|Coal", some 2, none, none⟩] true).2.meta := by
  have base := C10_validate_nonexisting metaFixture ⟨"Primary Energy|Coal", some 2, none, none⟩
    ⟨"a_model", "a_scenario2", false, []⟩ (by decide) (by decide)
  exact ⟨by decide, base.1, base.2.1⟩

/-- The entity index of a container: the `(model, scenario)` keys of its
metadata table. -/
def IamDataFrame.entities (c : IamDataFrame) : List (String × String) :=
  c.meta.map (fun mr => (mr.model, mr.scenario))

/-- Writes (or overwrites) one named metadata column cell of a row. -/
def setCol (nm : String) (v : MetaVal) (mr : MetaRow) : MetaRow :=
  ⟨mr.model, mr.scenario, mr.exclude, (nm, v) :: mr.cols.filter (fun p => p.1 ≠ nm)⟩

/-- The shapes of values accepted by `set_meta`: a scalar broadcast to all
entities, or a series carrying an optional own name, an optional entity
index, and its values. -/
inductive MetaInput where
  | scalar (v : MetaVal)
  | series (sname : Option String) (idx : Option (List (String × String))) (vals : List MetaVal)
deriving DecidableEq

/-- Modelled from the spec: missing `pyam.core.IamDataFrame.set_meta`.
Broadcasts a scalar, aligns an unnamed sequence positionally (length must
match), or aligns a series by its entity index, which must be unique and
contain only entities present in the container; a value error is raised when
no column name is determinable, the positional alignment is ambiguous, the
index is non-unique, or the index mentions an absent entity. -/
def set_meta (c : IamDataFrame) (values : MetaInput) (name : Option String) :
    Except PyExc IamDataFrame :=
  match values with
  | .scalar v =>
    match name with
    | none => .error (.valueError "Must pass a name or use a named series")
    | some nm => .ok ⟨c.data, c.meta.map (setCol nm v)⟩
  | .series sname idx vals =>
    match name <|> sname with
    | none => .error (.valueError "Must pass a name or use a named series")
    | some nm =>
      match idx with
      | none =>
        if vals.length = c.meta.length then
          .ok ⟨c.data, (c.meta.zip vals).map (fun p => setCol nm p.2 p.1)⟩
        else .error (.valueError "Ambiguous alignment of unnamed values to the entity index")
      | some ents =>
        if ¬ ents.Nodup then
          .error (.valueError "Non-unique index over the entity key")
        else if ¬ ∀ e ∈ ents, e ∈ c.entities then
          .error (.valueError "Index contains entities absent from the container")
        else
          .ok ⟨c.data, c.meta.map (fun mr =>
            match (ents.zip vals).find? (fun p => p.1 = (mr.model, mr.scenario)) with
            | some p => setCol nm p.2 mr
            | none => mr)⟩

/-- Claim C8: `set_meta` fails with a value error when the values form an
unnamed series (no column name determinable), when the supplied index
contains an entity absent from the container, and when the supplied index is
non-unique over the entity key. -/
theorem C8_set_meta_errors (c : IamDataFrame) (idx : Option (List (String × String)))
    (ents ents2 : List (String × String)) (vals vals' vals'' : List MetaVal)
    (sname sname2 : Option String) (nm nm2 : String) (e : String × String)
    (habsent : e ∈ ents) (habsent' : e ∉ c.entities) (hdup : ¬ ents2.Nodup) :
    (∃ m, set_meta c (.series none idx vals) none = .error (.valueError m)) ∧
    (∃ m, set_meta c (.series sname (some ents) vals') (some nm) = .error (.valueError m)) ∧
    (∃ m, set_meta c (.series sname2 (some ents2) vals'') (some nm2) = .error (.valueError m)) := by
  refine ⟨⟨_, rfl⟩, ?_, ?_⟩
  · by_cases hnd : ents.Nodup
    · refine ⟨"Index contains entities absent from the container", ?_⟩
      have hne : ¬ ∀ e' ∈ ents, e' ∈ c.entities := fun hall => habsent' (hall e habsent)
      simp only [set_meta, hnd, hne, not_true, not_false_iff, if_true, if_false, Option.some_orElse]
    · refine ⟨"Non-unique index over the entity key", ?_⟩
      simp [set_meta, hnd]
  · refine ⟨"Non-unique index over the entity key", ?_⟩
    simp [set_meta, hdup]

/-- Claim C8 (witness): the unnamed series, the index mentioning the absent
entity `fail_model/fail_scenario`, and the duplicated entity index all make
`set_meta` fail with a value error on the two-scenario fixture. -/
theorem C8_set_meta_errors_witness :
    (("fail_model", "fail_scenario") ∈
        [("a_model", "a_scenario"), ("fail_model", "fail_scenario")] ∧
      ("fail_model", "fail_scenario") ∉ metaFixture.entities ∧
      ¬ [("a_model", "a_scenario"), ("a_model", "a_scenario")].Nodup) ∧
    (∃ m, set_meta metaFixture
        (.series none (some [("a_model", "a_scenario")]) [.n (mkRat 3 10)]) none =
      .error (.valueError m)) ∧
    (∃ m, set_meta metaFixture
        (.series none (some [("a_model", "a_scenario"), ("fail_model", "fail_scenario")])
          [.n (mkRat 2 5), .n (mkRat 1 2)]) (some "meta_values") =
      .error (.valueError m)) ∧
    (∃ m, set_meta metaFixture
        (.series none (some [("a_model", "a_scenario"), ("a_model", "a_scenario")])
          [.n (mkRat 2 5), .n (mkRat 1 2)]) (some "meta_values") =
      .error (.valueError m)) := by
  have base := C8_set_meta_errors metaFixture (some [("a_model", "a_scenario")])
    [("a_model", "a_scenario"), ("fail_model", "fail_scenario")]
    [("a_model", "a_scenario"), ("a_model", "a_scenario")]
    [.n (mkRat 3 10)] [.n (mkRat 2 5), .n (mkRat 1 2)] [.n (mkRat 2 5), .n (mkRat 1 2)]
    none none "meta_values" "meta_values"
    ("fail_model", "fail_scenario") (by decide) (by decide) (by decide)
  exact ⟨⟨by decide, by decide, by decide⟩, base.1, base.2.1, base.2.2⟩

/-- The full long-format index of a row together with its time. -/
def fullKey (r : Row Int) : String × String × String × String × String × Int :=
  (r.model, r.scenario, r.region, r.varname, r.unit, r.time)

/-- Two metadata rows for the same entity conflict when their exclude flags
differ or they share a column name with different values. -/
def metaConflict (a b : MetaRow) : Bool :=
  (a.exclude != b.exclude) ||
  a.cols.any (fun p => b.cols.any (fun q => p.1 == q.1 && p.2 != q.2))

/-- Looks up the metadata row of an entity. -/
def findMeta (ms : List MetaRow) (m s : String) : Option MetaRow :=
  ms.find? (fun mr => mr.model == m && mr.scenario == s)

/-- Merges the metadata rows of a shared entity, preferring the left side. -/
def mergeMetaRow (a b : MetaRow) : MetaRow :=
  ⟨a.model, a.scenario, a.exclude, a.cols ++ b.cols.filter (fun q => ¬ a.cols.any (fun p => p.1 == q.1))⟩

/-- Modelled from the spec: missing `pyam.core.IamDataFrame.append`.  Unions
the two data tables, failing with a value error when the union carries a
duplicate (full-index, time) row; unions the metadata tables, failing with a
value error on conflicting metadata for a shared entity unless
`ignore_meta_conflict` prefers the left-hand side. -/
def append (c other : IamDataFrame) (ignoreMetaConflict : Bool) : Except PyExc IamDataFrame :=
  if ¬ ((c.data ++ other.data).map fullKey).Nodup then
    .error (.valueError "Duplicate rows in the union of the data tables")
  else if ¬ ignoreMetaConflict ∧ c.meta.any
      (fun a => (findMeta other.meta a.model a.scenario).elim false (metaConflict a)) then
    .error (.valueError "Conflicting metadata for shared entities")
  else
    .ok ⟨c.data ++ other.data,
      c.meta.map (fun a => (findMeta other.meta a.model a.scenario).elim a (mergeMetaRow a)) ++
        other.meta.filter (fun b => (findMeta c.meta b.model b.scenario).isNone)⟩

theorem map_id_of_mem {α : Type} (l : List α) (f : α → α) (h : ∀ a ∈ l, f a = a) :
    l.map f = l := by
  induction l with
  | nil => rfl
  | cons a t ih =>
    simp only [List.map_cons, h a (by simp), List.cons.injEq, true_and]
    exact ih (fun x hx => h x (by simp [hx]))

/-- The empty container, an exact duplicate of itself, which `append`
nevertheless accepts. -/
def emptyIam : IamDataFrame := ⟨[], []⟩

/-- Claim C3 (counterexample): appending an exact duplicate does not always
fail: for the empty container the union has no duplicate rows and the append
succeeds. -/
theorem C3_cex : append emptyIam emptyIam false = .ok emptyIam := rfl

/-- Claim C3 (amended): appending an exact duplicate of a container holding
at least one data row fails with a value error; appending a container with
disjoint scenarios (and duplicate-free sides) succeeds, the result's metadata
is the concatenation of both sides' metadata rows (each keeping its own
per-entity columns), and — the operations being pure transforms — the original
container's metadata is untouched. -/
theorem C3_append_props (c other : IamDataFrame)
    (hne : c.data ≠ [])
    (hku : (c.data.map fullKey).Nodup) (hku' : (other.data.map fullKey).Nodup)
    (hd : ∀ r ∈ c.data, ∀ r' ∈ other.data, r.scenario ≠ r'.scenario)
    (hm : ∀ a ∈ c.meta, ∀ b ∈ other.meta, a.scenario ≠ b.scenario) :
    (∃ m, append c c false = .error (.valueError m)) ∧
    append c other false = .ok ⟨c.data ++ other.data, c.meta ++ other.meta⟩ := by
  constructor
  · refine ⟨"Duplicate rows in the union of the data tables", ?_⟩
    rw [append, if_pos]
    obtain ⟨r, t, hrt⟩ : ∃ r t, c.data = r :: t := by
      cases hc : c.data with
      | nil => exact absurd hc hne
      | cons r t => exact ⟨r, t, rfl⟩
    intro hnd
    rw [List.map_append, List.nodup_append] at hnd
    have hmem : fullKey r ∈ c.data.map fullKey := List.mem_map_of_mem _ (by rw [hrt]; simp)
    exact (List.disjoint_left.mp hnd.2.2) hmem hmem
  · have hfind : ∀ a ∈ c.meta, findMeta other.meta a.model a.scenario = none := by
      intro a ha
      apply List.find?_eq_none.mpr
      intro b hb hpb
      simp only [Bool.and_eq_true, beq_iff_eq] at hpb
      exact hm a ha b hb hpb.2.symm
    have hfind' : ∀ b ∈ other.meta, findMeta c.meta b.model b.scenario = none := by
      intro b hb
      apply List.find?_eq_none.mpr
      intro a ha hpa
      simp only [Bool.and_eq_true, beq_iff_eq] at hpa
      exact hm a ha b hb hpa.2
    rw [append, if_neg, if_neg]
    · congr 1
      refine congrArg₂ IamDataFrame.mk rfl ?_
      refine congrArg₂ (· ++ ·) ?_ ?_
      · exact map_id_of_mem _ _ (fun a ha => by rw [hfind a ha]; rfl)
      · exact List.filter_eq_self.mpr (fun b hb => by rw [hfind' b hb]; rfl)
    · rintro ⟨-, hany⟩
      rw [List.any_eq_true] at hany
      obtain ⟨a, ha, hpa⟩ := hany
      rw [hfind a ha] at hpa
      simp at hpa
    · intro hnd
      apply hnd
      rw [List.map_append, List.nodup_append]
      refine ⟨hku, hku', List.disjoint_left.mpr ?_⟩
      rintro k hk hk'
      obtain ⟨r, hr, hkr⟩ := List.mem_map.mp hk
      obtain ⟨r', hr', hkr'⟩ := List.mem_map.mp hk'
      have : r.scenario = r'.scenario := by
        have := hkr.trans hkr'.symm
        simpa [fullKey, Prod.ext_iff] using congrArg (fun p => p.2.1) this
      exact hd r hr r' hr' this

/-- Claim C3 (witness): a one-scenario container appended to its duplicate
fails, while appending a disjoint second scenario succeeds and concatenates
the metadata rows of both sides. -/
theorem C3_append_props_witness :
    (∃ m, append ⟨[⟨"a_model", "a_scenario", "World", "Primary Energy", "EJ/y", 2005, 1⟩],
        [⟨"a_model", "a_scenario", false, [("col1", .n 0)]⟩]⟩
      ⟨[⟨"a_model", "a_scenario", "World", "Primary Energy", "EJ/y", 2005, 1⟩],
        [⟨"a_model", "a_scenario", false, [("col1", .n 0)]⟩]⟩ false = .error (.valueError m)) ∧
    append ⟨[⟨"a_model", "a_scenario", "World", "Primary Energy", "EJ/y", 2005, 1⟩],
        [⟨"a_model", "a_scenario", false, [("col1", .n 0)]⟩]⟩
      ⟨[⟨"a_model", "a_scenario3", "World", "Primary Energy", "EJ/y", 2005, 2⟩],
        [⟨"a_model", "a_scenario3", false, [("col3", .s "x")]⟩]⟩ false =
      .ok ⟨[⟨"a_model", "a_scenario", "World", "Primary Energy", "EJ/y", 2005, 1⟩,
            ⟨"a_model", "a_scenario3", "World", "Primary Energy", "EJ/y", 2005, 2⟩],
          [⟨"a_model", "a_scenario", false, [("col1", .n 0)]⟩,
            ⟨"a_model", "a_scenario3", false, [("col3", .s "x")]⟩]⟩ :=
  C3_append_props
    ⟨[⟨"a_model", "a_scenario", "World", "Primary Energy", "EJ/y", 2005, 1⟩],
      [⟨"a_model", "a_scenario", false, [("col1", .n 0)]⟩]⟩
    ⟨[⟨"a_model", "a_scenario3", "World", "Primary Energy", "EJ/y", 2005, 2⟩],
      [⟨"a_model", "a_scenario3", false, [("col3", .s "x")]⟩]⟩
    (by decide) (by decide) (by decide) (by decide) (by decide)

/-- Rational addition written through `mkRat` so that concrete instances
evaluate by kernel reduction. -/
def ratAdd (p q : Rat) : Rat := mkRat (p.num * q.den + q.num * p.den) (p.den * q.den)

/-- Rational multiplication written through `mkRat`. -/
def ratMul (p q : Rat) : Rat := mkRat (p.num * q.num) (p.den * q.den)

/-- Rational subtraction written through `mkRat`. -/
def ratSub (p q : Rat) : Rat := mkRat (p.num * q.den - q.num * p.den) (p.den * q.den)

/-- The sum of a list of rationals. -/
def ratSum (l : List Rat) : Rat := l.foldr ratAdd 0

/-- Modelled from the spec: the fixed relative/absolute numeric tolerance of
all aggregation comparisons, `|a - b| <= 1e-8 + 1e-5 * |b|` (the defaults of
numpy isclose), written cross-multiplied over numerators and denominators. -/
def ratClose (a b : Rat) : Bool :=
  decide (((a.num * (b.den : Int) - b.num * (a.den : Int)).natAbs : Int) * (100000 * 100000000)
    ≤ 100000 * ((a.den : Int) * (b.den : Int)) + 100000000 * ((b.num.natAbs : Int) * (a.den : Int)))

theorem ratClose_self (x : Rat) : ratClose x x = true := by
  simp only [ratClose, decide_eq_true_eq, sub_self, Int.natAbs_zero, Nat.cast_zero, zero_mul]
  positivity

/-- Variable `w` is a direct child of `parent` in the hierarchy: one segment
deeper, sharing the whole parent path. -/
def isDirectChild (parent w : String) : Bool :=
  let sp := splitCh '|' parent.data
  let sw := splitCh '|' w.data
  decide (sw.length = sp.length + 1) && decide (sw.take sp.length = sp)

theorem isDirectChild_ne (parent w : String) (h : isDirectChild parent w = true) :
    parent ≠ w := by
  intro he
  subst he
  simp [isDirectChild] at h

/-- The rows of the direct children of `v` at one `(model, scenario, region,
time)` key. -/
def childRowsAt (c : IamDataFrame) (v m s reg : String) (t : Int) : List (Row Int) :=
  c.data.filter (fun w =>
    isDirectChild v w.varname && w.model == m && w.scenario == s && w.region == reg && w.time == t)

/-- The child-sum compared against the parent's recorded value. -/
def childSum (c : IamDataFrame) (v m s reg : String) (t : Int) : Rat :=
  ratSum ((childRowsAt c v m s reg t).map Row.value)

/-- Whether any direct-child row exists at the key (aggregation comparisons
happen only where both sides exist). -/
def hasChild (c : IamDataFrame) (v m s reg : String) (t : Int) : Bool :=
  !(childRowsAt c v m s reg t).isEmpty

/-- One failing aggregation comparison: the parent's identifying index plus
the recorded parent value and the computed child-sum. -/
structure AggFailure where
  varname : String
  model : String
  scenario : String
  region : String
  time : Int
  parentVal : Rat
  childSumVal : Rat
deriving DecidableEq

/-- Modelled from the spec: missing `pyam.core.IamDataFrame.check_aggregate`.
Sums the direct children of `variable` grouped by `(model, scenario, region,
time)` and compares to the parent's recorded value wherever children exist;
returns `None` when all comparisons are within the numeric tolerance, else
the table of failing comparisons indexed by (variable, model, scenario,
region, time). -/
def aggFails (c : IamDataFrame) (v : String) : List AggFailure :=
  c.data.filterMap (fun p =>
    if p.varname = v ∧ hasChild c v p.model p.scenario p.region p.time = true ∧
        ratClose p.value (childSum c v p.model p.scenario p.region p.time) = false then
      some ⟨v, p.model, p.scenario, p.region, p.time, p.value,
        childSum c v p.model p.scenario p.region p.time⟩
    else none)

/-- Returns `None` when no comparison fails, else the failure table. -/
def check_aggregate (c : IamDataFrame) (v : String) : Option (List AggFailure) :=
  if aggFails c v = [] then none else some (aggFails c v)

/-- Multiplies the value of every row of one full-index series by `f`
(mirroring the repository's `run_check_agg_fail` tweak). -/
def scaleRow (m s reg vn u : String) (f : Rat) (r : Row Int) : Row Int :=
  if r.model = m ∧ r.scenario = s ∧ r.region = reg ∧ r.varname = vn ∧ r.unit = u then
    ⟨r.model, r.scenario, r.region, r.varname, r.unit, r.time, ratMul f r.value⟩
  else r

/-- The container with one full-index series scaled by `f`. -/
def scaleRows (c : IamDataFrame) (m s reg vn u : String) (f : Rat) : IamDataFrame :=
  ⟨c.data.map (scaleRow m s reg vn u f), c.meta⟩

theorem scaleRow_keys (m0 s0 reg0 vn u : String) (f : Rat) (r : Row Int) :
    (scaleRow m0 s0 reg0 vn u f r).model = r.model ∧
    (scaleRow m0 s0 reg0 vn u f r).scenario = r.scenario ∧
    (scaleRow m0 s0 reg0 vn u f r).region = r.region ∧
    (scaleRow m0 s0 reg0 vn u f r).varname = r.varname ∧
    (scaleRow m0 s0 reg0 vn u f r).unit = r.unit ∧
    (scaleRow m0 s0 reg0 vn u f r).time = r.time := by
  rw [scaleRow]
  split <;> exact ⟨rfl, rfl, rfl, rfl, rfl, rfl⟩

theorem scaleRow_varname_ne (m0 s0 reg0 vn u : String) (f : Rat) (r : Row Int)
    (h : r.varname ≠ vn) : scaleRow m0 s0 reg0 vn u f r = r := by
  rw [scaleRow, if_neg]
  rintro ⟨-, -, -, hv, -⟩
  exact h hv

theorem childRowsAt_scale (c : IamDataFrame) (v m s reg m0 s0 reg0 vn u : String) (f : Rat)
    (t : Int) :
    childRowsAt (scaleRows c m0 s0 reg0 vn u f) v m s reg t
      = (childRowsAt c v m s reg t).map (scaleRow m0 s0 reg0 vn u f) := by
  rw [childRowsAt, scaleRows, List.filter_map, childRowsAt]
  congr 1
  apply List.filter_congr
  intro r _
  obtain ⟨h1, h2, h3, h4, h5, h6⟩ := scaleRow_keys m0 s0 reg0 vn u f r
  simp [Function.comp, h1, h2, h3, h4, h6]

theorem hasChild_scale (c : IamDataFrame) (v m s reg m0 s0 reg0 vn u : String) (f : Rat)
    (t : Int) :
    hasChild (scaleRows c m0 s0 reg0 vn u f) v m s reg t = hasChild c v m s reg t := by
  rw [hasChild, hasChild, childRowsAt_scale]
  cases childRowsAt c v m s reg t <;> rfl

theorem childSum_scale_ne (c : IamDataFrame) (v m s reg m0 s0 reg0 vn u : String) (f : Rat)
    (t : Int) (hk : ¬(m = m0 ∧ s = s0 ∧ reg = reg0)) :
    childSum (scaleRows c m0 s0 reg0 vn u f) v m s reg t = childSum c v m s reg t := by
  rw [childSum, childSum, childRowsAt_scale, List.map_map]
  congr 1
  apply List.map_congr_left
  intro r hr
  have hq := List.of_mem_filter hr
  simp only [Bool.and_eq_true, beq_iff_eq] at hq
  show (scaleRow m0 s0 reg0 vn u f r).value = r.value
  rw [scaleRow, if_neg]
  rintro ⟨hm, hs, hreg, -, -⟩
  exact hk ⟨hq.1.1.1.2.symm.trans hm, hq.1.1.2.symm.trans hs, hq.1.2.symm.trans hreg⟩

/-- Claim C2: when the parent variable's recorded value equals the sum of its
direct children at every key, `check_aggregate` returns `None`; scaling one
child series by a factor (the 0.99 tweak of the repository's tests) so that
the discrepancy at some key exceeds the numeric tolerance makes
`check_aggregate` return a non-`None` table whose every index entry carries
exactly the perturbed parent variable, model, scenario and region. -/
theorem C2_check_aggregate (c : IamDataFrame) (v : String)
    (hexact : ∀ p ∈ c.data, p.varname = v →
      p.value = childSum c v p.model p.scenario p.region p.time)
    (m0 s0 reg0 cv u0 : String) (f : Rat)
    (hcv : isDirectChild v cv = true)
    (p0 : Row Int) (hp0 : p0 ∈ c.data) (hp0v : p0.varname = v)
    (hp0m : p0.model = m0) (hp0s : p0.scenario = s0) (hp0r : p0.region = reg0)
    (hhc : hasChild c v m0 s0 reg0 p0.time = true)
    (hfar : ratClose p0.value
      (childSum (scaleRows c m0 s0 reg0 cv u0 f) v m0 s0 reg0 p0.time) = false) :
    check_aggregate c v = none ∧
    ∃ l, check_aggregate (scaleRows c m0 s0 reg0 cv u0 f) v = some l ∧ l ≠ [] ∧
      ∀ e ∈ l, e.varname = v ∧ e.model = m0 ∧ e.scenario = s0 ∧ e.region = reg0 := by
  have hvcv : v ≠ cv := isDirectChild_ne v cv hcv
  have hgparent : ∀ p : Row Int, p.varname = v → scaleRow m0 s0 reg0 cv u0 f p = p :=
    fun p hpv => scaleRow_varname_ne m0 s0 reg0 cv u0 f p (by rw [hpv]; exact hvcv)
  constructor
  · have hnil : aggFails c v = [] := by
      apply List.filterMap_eq_nil_iff.mpr
      intro p hp
      rw [if_neg]
      rintro ⟨h1, -, h3⟩
      rw [← hexact p hp h1, ratClose_self] at h3
      cases h3
    simp [check_aggregate, hnil]
  · have hp0' : p0 ∈ (scaleRows c m0 s0 reg0 cv u0 f).data := by
      rw [scaleRows]
      have := List.mem_map_of_mem (scaleRow m0 s0 reg0 cv u0 f) hp0
      rwa [hgparent p0 hp0v] at this
    have hcond : p0.varname = v ∧
        hasChild (scaleRows c m0 s0 reg0 cv u0 f) v p0.model p0.scenario p0.region p0.time = true ∧
        ratClose p0.value
          (childSum (scaleRows c m0 s0 reg0 cv u0 f) v p0.model p0.scenario p0.region p0.time) =
          false := by
      refine ⟨hp0v, ?_, ?_⟩
      · rw [hp0m, hp0s, hp0r, hasChild_scale]
        exact hhc
      · rw [hp0m, hp0s, hp0r]
        exact hfar
    have hmem : (⟨v, p0.model, p0.scenario, p0.region, p0.time, p0.value,
        childSum (scaleRows c m0 s0 reg0 cv u0 f) v p0.model p0.scenario p0.region p0.time⟩ :
          AggFailure) ∈ aggFails (scaleRows c m0 s0 reg0 cv u0 f) v :=
      List.mem_filterMap.mpr ⟨p0, hp0', by rw [if_pos hcond]⟩
    have hnn : aggFails (scaleRows c m0 s0 reg0 cv u0 f) v ≠ [] := List.ne_nil_of_mem hmem
    refine ⟨aggFails (scaleRows c m0 s0 reg0 cv u0 f) v, ?_, hnn, ?_⟩
    · rw [check_aggregate, if_neg hnn]
    · intro e he
      obtain ⟨p', hp', hfp'⟩ := List.mem_filterMap.mp he
      by_cases hc' : p'.varname = v ∧
          hasChild (scaleRows c m0 s0 reg0 cv u0 f) v p'.model p'.scenario p'.region p'.time =
            true ∧
          ratClose p'.value
            (childSum (scaleRows c m0 s0 reg0 cv u0 f) v p'.model p'.scenario p'.region p'.time) =
            false
      · rw [if_pos hc'] at hfp'
        obtain ⟨pp, hpp, hgpp⟩ : ∃ pp ∈ c.data, scaleRow m0 s0 reg0 cv u0 f pp = p' := by
          rw [scaleRows] at hp'
          exact List.mem_map.mp hp'
        have hppv : pp.varname = v := by
          have := (scaleRow_keys m0 s0 reg0 cv u0 f pp).2.2.2.1
          rw [hgpp] at this
          rw [← this, hc'.1]
        have hppid : pp = p' := by rw [← hgpp, hgparent pp hppv]
        have hkey : p'.model = m0 ∧ p'.scenario = s0 ∧ p'.region = reg0 := by
          by_contra hk
          have hsum := childSum_scale_ne c v p'.model p'.scenario p'.region m0 s0 reg0 cv u0 f
            p'.time hk
          have hpe := hexact p' (hppid ▸ hpp) hc'.1
          have := hc'.2.2
          rw [hsum, ← hpe, ratClose_self] at this
          cases this
        cases hfp'
        exact ⟨rfl, hkey.1, hkey.2.1, hkey.2.2⟩
      · rw [if_neg hc'] at hfp'
        cases hfp'

/-- An exactly-aggregated container whose single child series is zero-valued,
so the 0.99 tweak does not move the child-sum at all. -/
def c2zero : IamDataFrame :=
  ⟨[⟨"a_model", "a_scen", "World", "Primary Energy", "EJ/y", 2005, 0⟩,
    ⟨"a_model", "a_scen", "World", "Primary Energy|Coal", "EJ/y", 2005, 0⟩],
   [⟨"a_model", "a_scen", false, []⟩]⟩

/-- Claim C2 (counterexample): perturbing one child's value by the factor
0.99 does not always make `check_aggregate` return a non-`None` table: on a
zero-valued child series the perturbation changes nothing and the check still
passes. -/
theorem C2_cex :
    check_aggregate
      (scaleRows c2zero "a_model" "a_scen" "World" "Primary Energy|Coal" "EJ/y" (mkRat 99 100))
      "Primary Energy" = none := by decide

/-- An exactly-aggregated container: parent value 3, children 1 and 2. -/
def c2fix : IamDataFrame :=
  ⟨[⟨"a_model", "a_scen", "World", "Primary Energy", "EJ/y", 2005, 3⟩,
    ⟨"a_model", "a_scen", "World", "Primary Energy|Coal", "EJ/y", 2005, 1⟩,
    ⟨"a_model", "a_scen", "World", "Primary Energy|Gas", "EJ/y", 2005, 2⟩],
   [⟨"a_model", "a_scen", false, []⟩]⟩

/-- Claim C2 (witness): the exactly-aggregated fixture passes, and scaling
its coal child by 0.99 yields a failure table indexed solely by the parent
variable and the perturbed model, scenario and region. -/
theorem C2_check_aggregate_witness :
    check_aggregate c2fix "Primary Energy" = none ∧
    ∃ l, check_aggregate
        (scaleRows c2fix "a_model" "a_scen" "World" "Primary Energy|Coal" "EJ/y" (mkRat 99 100))
        "Primary Energy" = some l ∧ l ≠ [] ∧
      ∀ e ∈ l, e.varname = "Primary Energy" ∧ e.model = "a_model" ∧ e.scenario = "a_scen" ∧
        e.region = "World" :=
  C2_check_aggregate c2fix "Primary Energy" (by decide) "a_model" "a_scen" "World"
    "Primary Energy|Coal" "EJ/y" (mkRat 99 100) (by decide)
    ⟨"a_model", "a_scen", "World", "Primary Energy", "EJ/y", 2005, 3⟩
    (by decide) rfl rfl rfl rfl (by decide) (by decide)

/-- The group key of the linear-interpolation pass: the full index without
the time column. -/
def gkey (r : Row Int) : String × String × String × String × String :=
  (r.model, r.scenario, r.region, r.varname, r.unit)

/-- Builds the row of one group at a given time and value. -/
def mkGRow (g : String × String × String × String × String) (t : Int) (x : Rat) : Row Int :=
  ⟨g.1, g.2.1, g.2.2.1, g.2.2.2.1, g.2.2.2.2, t, x⟩

/-- The distinct group keys of a data table. -/
def groupKeys (l : List (Row Int)) : List (String × String × String × String × String) :=
  (l.map gkey).dedup

/-- The rows of one group. -/
def rowsOf (l : List (Row Int)) (g : String × String × String × String × String) :
    List (Row Int) :=
  l.filter (fun r => decide (gkey r = g))

/-- The latest recorded point strictly before `y` in a group. -/
def prevPt (rows : List (Row Int)) (y : Int) : Option (Int × Rat) :=
  rows.foldl (fun acc r =>
    if r.time < y then
      match acc with
      | none => some (r.time, r.value)
      | some p => if p.1 < r.time then some (r.time, r.value) else acc
    else acc) none

/-- The earliest recorded point strictly after `y` in a group. -/
def nextPt (rows : List (Row Int)) (y : Int) : Option (Int × Rat) :=
  rows.foldl (fun acc r =>
    if y < r.time then
      match acc with
      | none => some (r.time, r.value)
      | some p => if r.time < p.1 then some (r.time, r.value) else acc
    else acc) none

/-- The value linearly interpolated at `y` from the bracketing points `p`
and `q`. -/
def interpVal (p q : Int × Rat) (y : Int) : Rat :=
  ratAdd p.2 (ratMul (ratSub q.2 p.2) (mkRat (y - p.1) (q.1 - p.1).toNat))

/-- Modelled from the spec: the per-group insertion step of
`pyam.core.IamDataFrame.interpolate` (missing from src/).  A group already
holding a row at `y` is skipped (the idempotence device: the exact
(index, time) key is checked before insert); a group with bracketing points
on both sides receives the linearly interpolated row; any other group is
left unmodified. -/
def interpStep (l : List (Row Int)) (y : Int)
    (g : String × String × String × String × String) : Option (Row Int) :=
  if (rowsOf l g).any (fun r => r.time == y) = true then none
  else
    match prevPt (rowsOf l g) y, nextPt (rowsOf l g) y with
    | some p, some q => some (mkGRow g y (interpVal p q y))
    | _, _ => none

/-- The rows inserted by one interpolation pass. -/
def newRowsFor (l : List (Row Int)) (y : Int) : List (Row Int) :=
  (groupKeys l).filterMap (interpStep l y)

/-- Modelled from the spec: missing `pyam.core.IamDataFrame.interpolate`. -/
def interpolate (c : IamDataFrame) (y : Int) : IamDataFrame :=
  ⟨c.data ++ newRowsFor c.data y, c.meta⟩

theorem gkey_mkGRow (g : String × String × String × String × String) (t : Int) (x : Rat) :
    gkey (mkGRow g t x) = g := rfl

theorem mem_rowsOf {l : List (Row Int)} {g : String × String × String × String × String}
    {r : Row Int} : r ∈ rowsOf l g ↔ r ∈ l ∧ gkey r = g := by
  simp [rowsOf, List.mem_filter]

theorem rowsOf_append (l l' : List (Row Int)) (g : String × String × String × String × String) :
    rowsOf (l ++ l') g = rowsOf l g ++ rowsOf l' g := by
  simp [rowsOf, List.filter_append]

theorem mem_newRowsFor (l : List (Row Int)) (y : Int) (r : Row Int)
    (h : r ∈ newRowsFor l y) : gkey r ∈ groupKeys l ∧ r.time = y := by
  obtain ⟨g, hg, hstep⟩ := List.mem_filterMap.mp h
  rw [interpStep] at hstep
  by_cases hc : (rowsOf l g).any (fun r => r.time == y) = true
  · rw [if_pos hc] at hstep
    cases hstep
  · rw [if_neg hc] at hstep
    cases hp : prevPt (rowsOf l g) y with
    | none =>
      rw [hp] at hstep
      cases hstep
    | some p =>
      cases hq : nextPt (rowsOf l g) y with
      | none =>
        rw [hp, hq] at hstep
        cases hstep
      | some q =>
        rw [hp, hq] at hstep
        cases hstep
        exact ⟨by rw [gkey_mkGRow]; exact hg, rfl⟩

theorem newRowsFor_idem (l : List (Row Int)) (y : Int) :
    newRowsFor (l ++ newRowsFor l y) y = [] := by
  apply List.filterMap_eq_nil_iff.mpr
  intro g hg
  rw [interpStep]
  by_cases hany : (rowsOf (l ++ newRowsFor l y) g).any (fun r => r.time == y) = true
  · rw [if_pos hany]
  · rw [if_neg hany]
    have hNg : rowsOf (newRowsFor l y) g = [] := by
      cases hrg : rowsOf (newRowsFor l y) g with
      | nil => rfl
      | cons r t =>
        exfalso
        have hrmem : r ∈ rowsOf (newRowsFor l y) g := by rw [hrg]; exact List.mem_cons_self r t
        have hrN := mem_rowsOf.mp hrmem
        have hty : r.time = y := (mem_newRowsFor l y r hrN.1).2
        apply hany
        rw [List.any_eq_true]
        refine ⟨r, ?_, by simp [hty]⟩
        rw [rowsOf_append]
        exact List.mem_append_right _ hrmem
    have hrows : rowsOf (l ++ newRowsFor l y) g = rowsOf l g := by
      rw [rowsOf_append, hNg, List.append_nil]
    rw [hrows]
    cases hp : prevPt (rowsOf l g) y with
    | none => rfl
    | some p =>
      cases hq : nextPt (rowsOf l g) y with
      | none => rfl
      | some q =>
        exfalso
        have hgl : g ∈ groupKeys l := by
          rw [groupKeys, List.mem_dedup] at hg ⊢
          obtain ⟨r, hr, hgr⟩ := List.mem_map.mp hg
          rcases List.mem_append.mp hr with hrl | hrN
          · exact List.mem_map.mpr ⟨r, hrl, hgr⟩
          · have := (mem_newRowsFor l y r hrN).1
            rw [groupKeys, List.mem_dedup] at this
            rwa [hgr] at this
        have hcond1 : ¬ (rowsOf l g).any (fun r => r.time == y) = true := by
          intro hone
          apply hany
          rw [List.any_eq_true] at hone ⊢
          obtain ⟨r, hr, hry⟩ := hone
          exact ⟨r, by rw [rowsOf_append]; exact List.mem_append_left _ hr, hry⟩
        have hprod : mkGRow g y (interpVal p q y) ∈ newRowsFor l y := by
          refine List.mem_filterMap.mpr ⟨g, hgl, ?_⟩
          rw [interpStep, if_neg hcond1, hp, hq]
        have : mkGRow g y (interpVal p q y) ∈ rowsOf (newRowsFor l y) g :=
          mem_rowsOf.mpr ⟨hprod, gkey_mkGRow g y (interpVal p q y)⟩
        rw [hNg] at this
        cases this

/-- Claim C6: `interpolate(year)` applied twice produces data identical to
applying it once (the exact (index, time) key check makes the second pass
insert nothing), and each group with bracketing points on both sides of
`year` (and no recorded row at `year`) receives the row carrying the value
linearly interpolated from the two bracketing points. -/
theorem C6_interpolate (c : IamDataFrame) (y : Int) :
    interpolate (interpolate c y) y = interpolate c y ∧
    ∀ g ∈ groupKeys c.data,
      (rowsOf c.data g).any (fun r => r.time == y) = false →
      ∀ p q, prevPt (rowsOf c.data g) y = some p → nextPt (rowsOf c.data g) y = some q →
        mkGRow g y (interpVal p q y) ∈ (interpolate c y).data := by
  constructor
  · simp [interpolate, newRowsFor_idem]
  · intro g hg hnone p q hp hq
    show mkGRow g y (interpVal p q y) ∈ c.data ++ newRowsFor c.data y
    refine List.mem_append_right _ (List.mem_filterMap.mpr ⟨g, hg, ?_⟩)
    rw [interpStep, if_neg (by simp [hnone]), hp, hq]

/-- Claim C6 (witness): interpolating the 1-at-2005 / 6-at-2010 series at
2007 inserts the value 3, and a second interpolation changes nothing. -/
theorem C6_interpolate_witness :
    interpolate (interpolate series16 2007) 2007 = interpolate series16 2007 ∧
    (rowsOf series16.data ("a_model", "a_scenario", "World", "Primary Energy", "EJ/y")).any
        (fun r => r.time == 2007) = false ∧
    mkGRow ("a_model", "a_scenario", "World", "Primary Energy", "EJ/y") 2007
        (interpVal (2005, 1) (2010, 6) 2007) ∈ (interpolate series16 2007).data ∧
    interpVal (2005, 1) (2010, 6) 2007 = 3 :=
  ⟨(C6_interpolate series16 2007).1, by decide,
    (C6_interpolate series16 2007).2 ("a_model", "a_scenario", "World", "Primary Energy", "EJ/y")
      (by decide) (by decide) (2005, 1) (2010, 6) (by decide) (by decide),
    by decide⟩

/-- Whether an exception kind belongs to the contract's taxonomy (value
error or conversion error). -/
def contractualExc : PyExc → Bool
  | .valueError _ => true
  | .conversionError _ _ => true
  | _ => false

/-- Whether a result respects the contract: success, or a contractual
exception. -/
def exceptContract {α : Type} : Except PyExc α → Bool
  | .ok _ => true
  | .error e => contractualExc e

/-- Modelled from the repository's tests
(`test_check_aggregate_no_method_openscm`): the continuous-time variant
provides no `check_aggregate` method, so invoking it surfaces a Python
attribute error to the caller. -/
def OpenSCMDataFrame.check_aggregate_call (_c : OpenSCMDataFrame) :
    Except PyExc (Option (List AggFailure)) :=
  .error (.attributeError "OpenSCMDataFrame object has no attribute check_aggregate")

/-- Claim C5 (counterexample): not every surfaced error is a value error or
the conversion-error kind: invoking `check_aggregate` on the continuous-time
container surfaces an attribute error, as the repository's own tests assert. -/
theorem C5_cex :
    OpenSCMDataFrame.check_aggregate_call c1fix.to_openscm_df =
      .error (.attributeError "OpenSCMDataFrame object has no attribute check_aggregate") ∧
    contractualExc (.attributeError "OpenSCMDataFrame object has no attribute check_aggregate") =
      false :=
  ⟨rfl, rfl⟩

/-- Claim C5 (amended): every error surfaced by the modelled fallible
operations (`append`, `set_meta`, construction, and the two checked variant
conversions) is a value error or the single conversion-error kind — except
that invoking the discrete-only `check_aggregate` on the continuous-time
variant surfaces an attribute error. -/
theorem C5_error_taxonomy :
    (∀ (c other : IamDataFrame) (ig : Bool), exceptContract (append c other ig) = true) ∧
    (∀ (c : IamDataFrame) (values : MetaInput) (nm : Option String),
      exceptContract (set_meta c values nm) = true) ∧
    (∀ (cols : List Rat) (rows : List WideRow), exceptContract (initIamDataFrame cols rows) = true) ∧
    (∀ (step : IamDataFrame → Except PyExc OpenSCMDataFrame) (c : IamDataFrame),
      exceptContract (to_openscm_df_checked step c) = true) ∧
    (∀ (step : OpenSCMDataFrame → Except PyExc IamDataFrame) (c : OpenSCMDataFrame),
      exceptContract (to_iam_df_checked step c) = true) ∧
    (∀ c : OpenSCMDataFrame, ∃ m, OpenSCMDataFrame.check_aggregate_call c =
      .error (.attributeError m)) := by
  refine ⟨?_, ?_, ?_, ?_, ?_, fun c => ⟨_, rfl⟩⟩
  · intro c other ig
    rw [append]
    split
    · rfl
    · split
      · rfl
      · rfl
  · intro c values nm
    unfold set_meta
    repeat' split
    all_goals rfl
  · intro cols rows
    unfold initIamDataFrame castYearCols
    split
    · next e heq =>
      split at heq
      · cases heq
      · cases heq
        rfl
    · rfl
  · intro step c
    unfold to_openscm_df_checked wrapConversion
    split <;> rfl
  · intro step c
    unfold to_iam_df_checked wrapConversion
    split <;> rfl
